import Mathlib

/-!
Verification development for the hinichi repository: a Cloudflare Worker that
aggregates Hatena Bookmark hot entries per category and day, enriches them with
article bodies and an AI summary, and serves feeds/pages.

Shallow embedding notes.
JavaScript strings are modeled as Lean `String`; `String.trim`, `split(/\s+/)`
and the regexes used by the code are modeled by explicit character-level
functions below using the ECMAScript whitespace/digit classes.  JavaScript
`Date.UTC`/`getUTC*` are modeled by exact proleptic-Gregorian day arithmetic
(the ECMA-262 MakeDay/YearFromTime semantics) on the argument ranges the code
can produce, including the two-digit-year rule (years 0..99 map to 1900..1999).
Asynchronous effects (fetch, cache backends, AI calls) are modeled as oracle
functions supplied as parameters, and the pipeline records the calls it makes
in an explicit event trace.
-/

namespace Hinichi

/-- ECMAScript WhiteSpace / LineTerminator class (the set matched by `\s` and
removed by `String.prototype.trim`). -/
def isJsWs (c : Char) : Bool :=
  let n := c.toNat
  n == 0x09 || n == 0x0A || n == 0x0B || n == 0x0C || n == 0x0D || n == 0x20 ||
  n == 0xA0 || n == 0x1680 || (0x2000 ≤ n && n ≤ 0x200A) || n == 0x2028 ||
  n == 0x2029 || n == 0x202F || n == 0x205F || n == 0x3000 || n == 0xFEFF

/-- ASCII digit, the ECMAScript `\d` class. -/
def isJsDigit (c : Char) : Bool :=
  48 ≤ c.toNat && c.toNat ≤ 57

/-- Model of `String.prototype.trim` on the character list. -/
def jsTrimList (l : List Char) : List Char :=
  ((l.dropWhile isJsWs).reverse.dropWhile isJsWs).reverse

/-- Model of `String.prototype.trim`. -/
def jsTrim (s : String) : String :=
  String.mk (jsTrimList s.data)

/-- Helper for `splitWs`: walks the characters, `acc` holds the current field
(reversed), `inSep` records that we are inside a whitespace run (so further
whitespace is absorbed into the same separator). -/
def splitWsGo : List Char → List Char → Bool → List String
  | [], acc, _ => [String.mk acc.reverse]
  | c :: cs, acc, inSep =>
    if isJsWs c then
      if inSep then splitWsGo cs acc true
      else String.mk acc.reverse :: splitWsGo cs [] true
    else splitWsGo cs (c :: acc) false

/-- Model of `str.split(/\s+/)`: split on maximal whitespace runs; a leading
run yields a leading empty field and a trailing run a trailing empty field,
and the empty string yields `[""]`, as in ECMAScript. -/
def splitWs (s : String) : List String :=
  splitWsGo s.data [] false

/-- First maximal run of ASCII digits in the characters, if any: the capture
of the regex `/(\d+)/`. -/
def firstDigitRun : List Char → Option (List Char)
  | [] => none
  | c :: cs =>
    if isJsDigit c then some (c :: cs.takeWhile isJsDigit)
    else firstDigitRun cs

/-- Numeric value of a digit character. -/
def digitVal (c : Char) : Nat := c.toNat - 48

/-- Model of `parseInt(run, 10)` on a nonempty decimal-digit run.  JavaScript
returns an IEEE double, exact for the lengths occurring here; we model the
exact integer value. -/
def natOfDigits (l : List Char) : Nat :=
  l.foldl (fun acc c => acc * 10 + digitVal c) 0

/-- Does the 10-character prefix of `l` have the shape dddd/dd/dd? -/
def datePatAt (l : List Char) : Bool :=
  match l with
  | a :: b :: c :: d :: s1 :: e :: f :: s2 :: g :: h :: _ =>
    isJsDigit a && isJsDigit b && isJsDigit c && isJsDigit d && s1 == '/' &&
    isJsDigit e && isJsDigit f && s2 == '/' && isJsDigit g && isJsDigit h
  | _ => false

/-- Model of `/\d{4}\/\d{2}\/\d{2}/.test(s)`: the (unanchored) regex matches
somewhere in the string. -/
def containsDatePat (s : String) : Bool :=
  go s.data
where
  go : List Char → Bool
    | [] => false
    | c :: cs => datePatAt (c :: cs) || go cs

/-- Model of `parts.join(" ")`. -/
def joinSpace (parts : List String) : String :=
  String.intercalate " " parts

/-! ## Entry data model (`src/types.ts`, `HatenaEntry`) -/

structure HatenaEntry where
  title : String
  url : String
  description : String
  users : Nat
  domain : String
  category : String
  date : String
  tags : List String
  imageUrl : Option String
deriving DecidableEq, Repr

/-! ## Entry collector (`src/entry-collector.ts`, class `EntryCollector`)

The mutable class instance is modeled as a state record; each method is a
state-transformer.  The HTMLRewriter handlers drive the collector through a
sequence of method calls, which we model as an event list. -/

structure CState where
  entries : List HatenaEntry
  currentTitle : String
  currentUrl : String
  currentUsers : Nat
  currentDomain : String
  currentDescription : String
  currentCategory : String
  currentDate : String
  currentTags : List String
  currentImageUrl : Option String
  collectingTitle : Bool
  collectingUsers : Bool
  collectingDomain : Bool
  collectingDescription : Bool
  collectingDate : Bool
  collectingTag : Bool
  currentTagText : String
deriving DecidableEq, Repr

def initCState : CState :=
  { entries := [], currentTitle := "", currentUrl := "", currentUsers := 0,
    currentDomain := "", currentDescription := "", currentCategory := "",
    currentDate := "", currentTags := [], currentImageUrl := none,
    collectingTitle := false, collectingUsers := false, collectingDomain := false,
    collectingDescription := false, collectingDate := false, collectingTag := false,
    currentTagText := "" }

/-- `startEntry()`: reset the per-entry accumulator fields (the collecting
flags are not touched, as in the source). -/
def startEntry (s : CState) : CState :=
  { s with currentTitle := "", currentUrl := "", currentUsers := 0,
           currentDomain := "", currentDescription := "", currentCategory := "",
           currentDate := "", currentTags := [], currentImageUrl := none }

/-- `finishEntry()`: push the accumulated entry if both `currentTitle` and
`currentUrl` are truthy (i.e. nonempty, before trimming). -/
def finishEntry (s : CState) : CState :=
  if s.currentTitle ≠ "" ∧ s.currentUrl ≠ "" then
    { s with entries := s.entries ++
        [{ title := jsTrim s.currentTitle, url := s.currentUrl,
           description := jsTrim s.currentDescription, users := s.currentUsers,
           domain := jsTrim s.currentDomain, category := jsTrim s.currentCategory,
           date := jsTrim s.currentDate, tags := s.currentTags,
           imageUrl := s.currentImageUrl }] }
  else s

def setTitleUrl (href : String) (s : CState) : CState :=
  { s with currentUrl := href }

def startTitleText (s : CState) : CState := { s with collectingTitle := true }

def appendTitleText (t : String) (s : CState) : CState :=
  if s.collectingTitle then { s with currentTitle := s.currentTitle ++ t } else s

def endTitleText (s : CState) : CState := { s with collectingTitle := false }

def startUsersText (s : CState) : CState := { s with collectingUsers := true }

/-- `appendUsersText`: on each text fragment, the first digit run (if any)
overwrites `currentUsers`. -/
def appendUsersText (t : String) (s : CState) : CState :=
  if s.collectingUsers then
    match firstDigitRun t.data with
    | some run => { s with currentUsers := natOfDigits run }
    | none => s
  else s

def endUsersText (s : CState) : CState := { s with collectingUsers := false }

def startDomainText (s : CState) : CState := { s with collectingDomain := true }

def appendDomainText (t : String) (s : CState) : CState :=
  if s.collectingDomain then { s with currentDomain := s.currentDomain ++ t } else s

def endDomainText (s : CState) : CState := { s with collectingDomain := false }

def startDescriptionText (s : CState) : CState := { s with collectingDescription := true }

def appendDescriptionText (t : String) (s : CState) : CState :=
  if s.collectingDescription then
    { s with currentDescription := s.currentDescription ++ t }
  else s

def endDescriptionText (s : CState) : CState := { s with collectingDescription := false }

def startDateText (s : CState) : CState := { s with collectingDate := true }

/-- `appendDateText`: trimmed nonempty fragments are accumulated, joined by a
single space. -/
def appendDateText (t : String) (s : CState) : CState :=
  if s.collectingDate then
    let trimmed := jsTrim t
    if trimmed ≠ "" then
      if s.currentDate ≠ "" then { s with currentDate := s.currentDate ++ " " ++ trimmed }
      else { s with currentDate := trimmed }
    else s
  else s

/-- `endDateText`: split the accumulated text on whitespace runs; when the
second-to-last token is truthy and the regex `/\d{4}\/\d{2}\/\d{2}/` matches
somewhere inside it, the last two tokens (joined by one space) become the date
and the preceding tokens (joined by spaces) become the category. -/
def endDateText (s : CState) : CState :=
  let s := { s with collectingDate := false }
  let parts := splitWs s.currentDate
  if parts.length ≥ 2 then
    let dateStr := parts.getD (parts.length - 2) ""
    let timeStr := parts.getD (parts.length - 1) ""
    if dateStr ≠ "" ∧ containsDatePat dateStr then
      { s with currentDate := dateStr ++ " " ++ timeStr,
               currentCategory := joinSpace (parts.take (parts.length - 2)) }
    else s
  else s

def startTagText (s : CState) : CState :=
  { s with collectingTag := true, currentTagText := "" }

def appendTagText (t : String) (s : CState) : CState :=
  if s.collectingTag then { s with currentTagText := s.currentTagText ++ t } else s

def endTagText (s : CState) : CState :=
  let s' :=
    if s.collectingTag ∧ jsTrim s.currentTagText ≠ "" then
      { s with currentTags := s.currentTags ++ [jsTrim s.currentTagText] }
    else s
  { s' with collectingTag := false }

def setImageUrl (src : String) (s : CState) : CState :=
  { s with currentImageUrl := some src }

/-- One collector method call, as driven by the HTMLRewriter handlers in
`extractEntries`. -/
inductive CEvent where
  | startEntry
  | finishEntry
  | setTitleUrl (href : String)
  | startTitleText
  | appendTitleText (t : String)
  | endTitleText
  | startUsersText
  | appendUsersText (t : String)
  | endUsersText
  | startDomainText
  | appendDomainText (t : String)
  | endDomainText
  | startDescriptionText
  | appendDescriptionText (t : String)
  | endDescriptionText
  | startDateText
  | appendDateText (t : String)
  | endDateText
  | startTagText
  | appendTagText (t : String)
  | endTagText
  | setImageUrl (src : String)
deriving DecidableEq, Repr

def cstep (s : CState) : CEvent → CState
  | .startEntry => startEntry s
  | .finishEntry => finishEntry s
  | .setTitleUrl href => setTitleUrl href s
  | .startTitleText => startTitleText s
  | .appendTitleText t => appendTitleText t s
  | .endTitleText => endTitleText s
  | .startUsersText => startUsersText s
  | .appendUsersText t => appendUsersText t s
  | .endUsersText => endUsersText s
  | .startDomainText => startDomainText s
  | .appendDomainText t => appendDomainText t s
  | .endDomainText => endDomainText s
  | .startDescriptionText => startDescriptionText s
  | .appendDescriptionText t => appendDescriptionText t s
  | .endDescriptionText => endDescriptionText s
  | .startDateText => startDateText s
  | .appendDateText t => appendDateText t s
  | .endDateText => endDateText s
  | .startTagText => startTagText s
  | .appendTagText t => appendTagText t s
  | .endTagText => endTagText s
  | .setImageUrl src => setImageUrl src s

/-- Run the collector over a call sequence; this is the shape of every
execution of `extractEntries` (boundary handler, field handlers, and the
final `finishEntry`). -/
def runCollector (evs : List CEvent) : CState :=
  evs.foldl cstep initCState

/-- The entry that `finishEntry` pushes from state `s`. -/
def pushedEntry (s : CState) : HatenaEntry :=
  { title := jsTrim s.currentTitle, url := s.currentUrl,
    description := jsTrim s.currentDescription, users := s.currentUsers,
    domain := jsTrim s.currentDomain, category := jsTrim s.currentCategory,
    date := jsTrim s.currentDate, tags := s.currentTags,
    imageUrl := s.currentImageUrl }

/-- One full date/category collection cycle on a fresh entry: the `DateHandler`
arms the collector, one text fragment arrives, and the text node ends. -/
def collectDateCycle (t : String) : CState :=
  endDateText (appendDateText t (startDateText initCState))

/-- The whitespace-run tokens of the trimmed collected text. -/
def splitTokens (t : String) : List String := splitWs (jsTrim t)

/-- The second-to-last token (the candidate date token). -/
def secondLastToken (t : String) : String :=
  (splitTokens t).getD ((splitTokens t).length - 2) ""

/-- The last token (the token taken as the time). -/
def lastToken (t : String) : String :=
  (splitTokens t).getD ((splitTokens t).length - 1) ""

/-! ## Calendar model (`subtractDays`, `src/index.ts` lines 66-76)

`subtractDays` parses a YYYYMMDD string, builds `Date.UTC(y, m-1, d)`,
subtracts `days * 24h` in milliseconds and reads the UTC calendar fields
back.  ECMA-262 defines `Date.UTC`/`getUTC*` by exact proleptic-Gregorian
arithmetic; we model day numbers counted from year 0, January 1 (the epoch
constant cancels in the round trip).  The model covers the argument ranges
reachable from the validated 8-digit date strings with in-range month/day
fields and day numbers that stay nonnegative; `Date.UTC`'s two-digit-year
rule (0..99 mapped to 1900..1999) is included. -/

/-- Gregorian leap-year rule. -/
def isLeap (y : Nat) : Bool := (y % 4 == 0 && y % 100 != 0) || y % 400 == 0

def yearLen (y : Nat) : Nat := if isLeap y then 366 else 365

/-- Days from year 0, Jan 1 to year `y`, Jan 1 (proleptic Gregorian). -/
def dty (y : Nat) : Nat := 365 * y + (y + 3) / 4 - (y + 99) / 100 + (y + 399) / 400

/-- Length of month `m` (1-based); 0 outside 1..12. -/
def monthLen (leap : Bool) : Nat → Nat
  | 1 => 31
  | 2 => if leap then 29 else 28
  | 3 => 31
  | 4 => 30
  | 5 => 31
  | 6 => 30
  | 7 => 31
  | 8 => 31
  | 9 => 30
  | 10 => 31
  | 11 => 30
  | 12 => 31
  | _ => 0

/-- Days within the year before month `m` (1-based). -/
def monthStart (leap : Bool) : Nat → Nat
  | 0 => 0
  | 1 => 0
  | m + 2 => monthStart leap (m + 1) + monthLen leap (m + 1)

/-- A calendar date as year/month/day fields. -/
structure Civil where
  y : Nat
  m : Nat
  d : Nat
deriving DecidableEq, Repr

def ValidCivil (c : Civil) : Prop :=
  1 ≤ c.m ∧ c.m ≤ 12 ∧ 1 ≤ c.d ∧ c.d ≤ monthLen (isLeap c.y) c.m

instance (c : Civil) : Decidable (ValidCivil c) := by
  unfold ValidCivil
  infer_instance

/-- Day number of a civil date (days since year 0, Jan 1); the mathematical
content of `Date.UTC(y, m-1, d)` for month/day fields in calendar range. -/
def toDayNumber (c : Civil) : Nat :=
  dty c.y + monthStart (isLeap c.y) c.m + (c.d - 1)

/-- Year scan for the inverse conversion: starting at year `y` with `r` days
left, consume whole years. -/
def yScanGo : Nat → Nat → Nat → Nat × Nat
  | 0, y, r => (y, r)
  | fuel + 1, y, r =>
    if yearLen y ≤ r then yScanGo fuel (y + 1) (r - yearLen y) else (y, r)

/-- Month scan: starting at month `m` with `r` days left inside the year,
consume whole months. -/
def mScanGo (leap : Bool) : Nat → Nat → Nat → Nat × Nat
  | 0, m, r => (m, r)
  | fuel + 1, m, r =>
    if monthLen leap m ≤ r then mScanGo leap fuel (m + 1) (r - monthLen leap m) else (m, r)

/-- Inverse of `toDayNumber`: the civil date of day number `z` (the
mathematical content of `getUTCFullYear/Month/Date`).  Jumps to the right
400-year era, then scans years and months. -/
def civilFromDays (z : Nat) : Civil :=
  let era := z / 146097
  let rem := z % 146097
  let yr := yScanGo 401 (400 * era) rem
  let md := mScanGo (isLeap yr.1) 12 1 yr.2
  ⟨yr.1, md.1, md.2 + 1⟩

/-- Calendar-correct predecessor of a civil date, with month and year
rollover (the specification-side notion of subtracting one day). -/
def prevDay (c : Civil) : Civil :=
  if 1 < c.d then ⟨c.y, c.m, c.d - 1⟩
  else if 1 < c.m then ⟨c.y, c.m - 1, monthLen (isLeap c.y) (c.m - 1)⟩
  else ⟨c.y - 1, 12, 31⟩

/-- Iterated calendar-correct predecessor. -/
def prevDays : Nat → Civil → Civil
  | 0, c => c
  | n + 1, c => prevDays n (prevDay c)

def digitChar (k : Nat) : Char := Char.ofNat (48 + k)

/-- The two digit characters of `String(n).padStart(2, "0")` for `n ≤ 99`. -/
def digit2 (n : Nat) : List Char := [digitChar (n / 10), digitChar (n % 10)]

/-- The four digit characters of `String(y)` for `1000 ≤ y ≤ 9999`. -/
def digit4 (y : Nat) : List Char :=
  [digitChar (y / 1000), digitChar (y / 100 % 10), digitChar (y / 10 % 10), digitChar (y % 10)]

/-- Model of the formatting in `subtractDays` (and `getYesterdayJST`):
`[getUTCFullYear(), pad2(month), pad2(day)].join("")`, for years whose
decimal form has four digits. -/
def fmtDate (c : Civil) : String :=
  String.mk (digit4 c.y ++ digit2 c.m ++ digit2 c.d)

/-- Model of the three `parseInt(yyyymmdd.slice(..))` calls on an 8-character
digit string. -/
def parseDate8 (s : String) : Civil :=
  match s.data with
  | [a, b, c, d, e, f, g, h] =>
    ⟨digitVal a * 1000 + digitVal b * 100 + digitVal c * 10 + digitVal d,
     digitVal e * 10 + digitVal f,
     digitVal g * 10 + digitVal h⟩
  | _ => ⟨0, 0, 0⟩

/-- ECMA-262 `Date.UTC` two-digit-year rule. -/
def jsFullYear (y : Nat) : Nat := if y ≤ 99 then 1900 + y else y

/-- Model of `subtractDays(yyyymmdd, days)` from `src/index.ts`:
parse, convert to a day number via `Date.UTC`, subtract `days`, format the
UTC calendar fields of the result. -/
def subtractDays (s : String) (days : Nat) : String :=
  let c := parseDate8 s
  let y := jsFullYear c.y
  let t := dty y + monthStart (isLeap y) c.m + (c.d - 1)
  fmtDate (civilFromDays (t - days))

/-! ## Tiered data cache (`createDataCache`, `matchJsonCache`, key builders)

The durable KV namespace and the edge cache are modeled as association lists
keyed by the exact key strings the code builds.  The JSON (de)serialization
at the storage boundary is the platform's (`kv.get(key, "json")`,
`JSON.stringify`, `Response.json()`); it is modeled as the identity on the
payload type, with a possibly-corrupt body (`Option`-wrapped) on the edge
side so that the `matchJsonCache` self-healing branch is representable. -/

def DATA_CACHE_VERSION : String := "2"

def ENTRY_LOOKBACK_DAYS : Nat := 2

def buildKvKey (kind category date : String) : String :=
  "v" ++ DATA_CACHE_VERSION ++ ":" ++ kind ++ ":" ++ category ++ ":" ++ date

/-- Model of `buildDataCacheKey`: the synthetic URL
`<baseUrl>/__cache/<kind>?category=..&date=..&v=..` with the search
parameters in the order the code sets them. -/
def buildDataCacheKey (baseUrl kind category date : String) : String :=
  baseUrl ++ "/__cache/" ++ kind ++ "?category=" ++ category ++ "&date=" ++ date ++
    "&v=" ++ DATA_CACHE_VERSION

/-- Model of `buildCacheKey`: `<baseUrl>/<category>?date=..&format=..` plus
`&summary=..` when a summary parameter is present. -/
def buildCacheKey (baseUrl category dateParam format : String)
    (summaryParam : Option String) : String :=
  baseUrl ++ "/" ++ category ++ "?date=" ++ dateParam ++ "&format=" ++ format ++
    (match summaryParam with
     | some sp => "&summary=" ++ sp
     | none => "")

/-- The two interchangeable cache backends: a durable KV store (payloads
stored as-is) and an edge cache (bodies that may fail to parse, modeled by
`Option`). `none` in a field means that backend is not configured. -/
structure CacheBackends (α : Type) where
  kv : Option (List (String × α))
  edge : Option (List (String × Option α))

/-- `dataCache.get`: prefer KV, else match the edge cache and parse the body;
a corrupt edge body is deleted and treated as a miss (`matchJsonCache`).
Returns the value and the possibly self-healed backends. -/
def dcGet {α : Type} (bk : CacheBackends α) (baseUrl kind category date : String) :
    Option α × CacheBackends α :=
  match bk.kv with
  | some store => (store.lookup (buildKvKey kind category date), bk)
  | none =>
    match bk.edge with
    | some store =>
      let key := buildDataCacheKey baseUrl kind category date
      match store.lookup key with
      | none => (none, bk)
      | some none => (none, { bk with edge := some (store.filter (fun p => !(p.1 == key))) })
      | some (some v) => (some v, bk)
    | none => (none, bk)

/-- `dataCache.put`: write to KV when present, else to the edge cache, else
no-op. -/
def dcPut {α : Type} (bk : CacheBackends α) (baseUrl kind category date : String) (v : α) :
    CacheBackends α :=
  match bk.kv with
  | some store => { bk with kv := some ((buildKvKey kind category date, v) :: store) }
  | none =>
    match bk.edge with
    | some store =>
      { bk with edge := some ((buildDataCacheKey baseUrl kind category date, some v) :: store) }
    | none => bk

/-- `dataCache.delete`: delete from KV when present, else from the edge
cache. -/
def dcDelete {α : Type} (bk : CacheBackends α) (baseUrl kind category date : String) :
    CacheBackends α :=
  match bk.kv with
  | some store =>
    { bk with kv := some (store.filter (fun p => !(p.1 == buildKvKey kind category date))) }
  | none =>
    match bk.edge with
    | some store =>
      let key := buildDataCacheKey baseUrl kind category date
      { bk with edge := some (store.filter (fun p => !(p.1 == key))) }
    | none => bk

/-! ## Article-body enrichment (`src/article-fetcher.ts`)

`fetchArticleBody` is an outbound-fetch collaborator; it is modeled by an
oracle `HatenaEntry → Option String` where `none` models a rejected promise
and `some b` a settled fetch whose (possibly empty) body text is `b`. -/

structure ArticleContent where
  entry : HatenaEntry
  bodyText : String
deriving DecidableEq, Repr

/-- The async mapper inside `fetchArticleContents`: a settled fetch yields
`bodyText || entry.description`; a rejection is an `error` element of the
`Promise.allSettled` result array. -/
def settleArticle (oracle : HatenaEntry → Option String) (e : HatenaEntry) :
    Except Unit ArticleContent :=
  match oracle e with
  | none => .error ()
  | some b => .ok ⟨e, if b = "" then e.description else b⟩

/-- Model of `fetchArticleContents(entries, maxArticles = 20)`: take the
first `maxArticles` entries, settle one fetch per target, and map the settled
results back over the targets, degrading a rejected item to the target's
description. -/
def fetchArticleContents (entries : List HatenaEntry)
    (oracle : HatenaEntry → Option String) (maxArticles : Nat := 20) : List ArticleContent :=
  let targets := entries.take maxArticles
  let settled := targets.map (settleArticle oracle)
  (settled.zip targets).map (fun p =>
    match p.1 with
    | .ok a => a
    | .error _ => ⟨p.2, p.2.description⟩)

/-! ## AI summary (`generateAISummary`, `buildFallbackSummary`) -/

structure ArticleSummary where
  title : String
  url : String
  summary : String
deriving DecidableEq, Repr

structure AISummaryResult where
  overview : String
  articles : List ArticleSummary
deriving DecidableEq, Repr

/-- Model of `s.slice(0, n)` (UTF-16 detail abstracted to characters). -/
def jsSlice (s : String) (n : Nat) : String := String.mk (s.data.take n)

/-- `buildFallbackSummary`: deterministic summary from existing entry
metadata. -/
def buildFallbackSummary (articles : List ArticleContent) : AISummaryResult :=
  { overview := Nat.repr articles.length ++ "件の人気エントリーがあります。",
    articles := articles.map (fun a =>
      ⟨a.entry.title, a.entry.url, jsSlice a.entry.description 100⟩) }

/-- Model of `generateAISummary`: the Gemini call is an external collaborator
modeled by `aiOracle` (`none` models any failure — network, schema, quota);
on failure the deterministic fallback is used.  The prompt (articles and
display date) does not affect the model's control flow. -/
def generateAISummary (aiOracle : Option AISummaryResult)
    (articles : List ArticleContent) (_dateStr : String) : AISummaryResult :=
  match aiOracle with
  | some v => v
  | none => buildFallbackSummary articles

/-! ## Request pipeline (`app.get("/:category")` in `src/index.ts`) -/

/-- The AI-summary bindings as runtime values: `none` models a binding that
is absent or not a string. -/
structure EnvBindings where
  googleAiApiKey : Option String
  browserRenderingAccountId : Option String
  browserRenderingApiToken : Option String

/-- `getMissingAISummaryBindings`: names of required bindings whose value is
not a string or is whitespace-only after trimming. -/
def getMissingAISummaryBindings (env : EnvBindings) : List String :=
  (([("GOOGLE_AI_API_KEY", env.googleAiApiKey),
     ("BROWSER_RENDERING_ACCOUNT_ID", env.browserRenderingAccountId),
     ("BROWSER_RENDERING_API_TOKEN", env.browserRenderingApiToken)]
      : List (String × Option String)).filter
    (fun p =>
      match p.2 with
      | none => true
      | some s => jsTrim s == "")).map (fun p => p.1)

/-- `formatDateForDisplay`: `YYYYMMDD` → `YYYY-MM-DD` by slicing. -/
def formatDateForDisplay (s : String) : String :=
  String.mk (s.data.take 4) ++ "-" ++ String.mk ((s.data.drop 4).take 2) ++ "-" ++
    String.mk ((s.data.drop 6).take 2)

/-- `resolveLookupDates`: the candidate-date list used for cache-read
probing. -/
def resolveLookupDates (dateParam : String) (allowRetry : Bool) : List String :=
  if !allowRetry then [dateParam]
  else (List.range (ENTRY_LOOKBACK_DAYS + 1)).map (fun i => subtractDays dateParam i)

/-- The date tried at attempt `i` of the upstream retry loop in
`fetchHatenaEntries` (`i === 0 ? dateParam : subtractDays(dateParam, i)`),
for `i < maxRetries = allowRetry ? 3 : 1`. -/
def fetchTryDates (dateParam : String) (allowRetry : Bool) : List String :=
  (List.range (if allowRetry then 3 else 1)).map
    (fun i => if i == 0 then dateParam else subtractDays dateParam i)

/-- The success test both loops apply to one candidate date: an available
(OK / cached-array) listing that is non-empty. -/
def listingHit (f : String → Option (List HatenaEntry)) (d : String) :
    Option (List HatenaEntry × String) :=
  match f d with
  | none => none
  | some es => if es.length > 0 then some (es, d) else none

/-- The retry loop of `fetchHatenaEntries`: try each date in order; a non-OK
response (`none`) or an empty extraction advances to the next candidate.
Also returns the list of dates actually fetched. -/
def tryFetchLoop (upstream : String → Option (List HatenaEntry)) :
    List String → Option (List HatenaEntry × String) × List String
  | [] => (none, [])
  | d :: rest =>
    match upstream d with
    | none =>
      let r := tryFetchLoop upstream rest
      (r.1, d :: r.2)
    | some es =>
      if es.length > 0 then (some (es, d), [d])
      else
        let r := tryFetchLoop upstream rest
        (r.1, d :: r.2)

/-- `fetchHatenaEntries`: on exhaustion the entries are `null` and the
resolved date falls back to the requested date. -/
def fetchHatenaEntries (upstream : String → String → Option (List HatenaEntry))
    (category dateParam : String) (allowRetry : Bool) :
    (Option (List HatenaEntry) × String) × List String :=
  let r := tryFetchLoop (upstream category) (fetchTryDates dateParam allowRetry)
  match r.1 with
  | some p => ((some p.1, p.2), r.2)
  | none => ((none, dateParam), r.2)

/-- The entries-tier cache probing loop (`for lookupDate of resolveLookupDates`):
first cached non-empty array wins.  Also returns the dates probed. -/
def probeEntriesLoop (get : String → Option (List HatenaEntry)) :
    List String → Option (List HatenaEntry × String) × List String
  | [] => (none, [])
  | d :: rest =>
    match get d with
    | some es =>
      if es.length > 0 then (some (es, d), [d])
      else
        let r := probeEntriesLoop get rest
        (r.1, d :: r.2)
    | none =>
      let r := probeEntriesLoop get rest
      (r.1, d :: r.2)

/-- One observable effect of a request: cache reads/writes/deletes on the
full-response cache and the data-cache tiers, upstream listing fetches,
article-body fan-out and AI generation. -/
inductive PEv where
  | fullGet (key : String)
  | fullDel (key : String)
  | fullPut (key : String)
  | dataGet (kind category date : String)
  | dataPut (kind category date : String)
  | dataDel (kind category date : String)
  | upstreamFetch (category date : String)
  | articlesFetch (count : Nat)
  | aiGenerate
deriving DecidableEq, Repr

def isReadEv : PEv → Bool
  | .fullGet _ => true
  | .dataGet _ _ _ => true
  | _ => false

def isUpstreamEv : PEv → Bool
  | .upstreamFetch _ _ => true
  | _ => false

/-- A cached ai-summary payload as seen by `aiSummarySchema.safeParse`:
either it parses to a summary or it is corrupt. -/
inductive AiCacheVal where
  | parsed (v : AISummaryResult)
  | corrupt
deriving DecidableEq, Repr

/-- The outcome of one request: an error response, a full-response cache hit
(short-circuit), or a freshly built response. -/
inductive Outcome where
  | errorResp (status : Nat) (message dateStr category : String) (details : List String)
  | cachedResp (key : String)
  | okResp (entries : List HatenaEntry) (effectiveDate : String)
      (summary : Option AISummaryResult)
deriving DecidableEq, Repr

/-- One request's inputs: the validated parameters, the environment, and the
external collaborators (caches, upstream, article fetches, the AI call) as
oracles.  `yesterday` is the value `getYesterdayJST()` would return. -/
structure ReqConfig where
  category : String
  dateQ : Option String
  format : String
  summaryParam : Option String
  revalidate : Bool
  env : EnvBindings
  yesterday : String
  baseUrl : String
  cachePresent : Bool
  kvPresent : Bool
  fullCache : String → Option String
  entriesCache : String → String → Option (List HatenaEntry)
  articlesCache : String → String → Option (List ArticleContent)
  aiCache : String → String → Option AiCacheVal
  upstream : String → String → Option (List HatenaEntry)
  articleOracle : HatenaEntry → Option String
  aiOracle : Option AISummaryResult

/-- A `dataCache.get` read: returns `null` when neither backend is
configured, else consults the oracle content. -/
def dataCacheRead {α : Type} (cfg : ReqConfig) (oracle : String → String → Option α)
    (category date : String) : Option α :=
  if cfg.kvPresent || cfg.cachePresent then oracle category date else none

/-- Result of the entries-resolution phase (lines 276-296 of
`src/index.ts`). -/
structure EntriesPhase where
  entries : Option (List HatenaEntry)
  effectiveDate : String
  fromCache : Bool
  trace : List PEv

/-- The entries-resolution phase: cache probing over the candidate dates
(skipped under revalidation), then the upstream retry loop on a miss. -/
def phaseEntries (cfg : ReqConfig) (dateParam : String) (allowRetry : Bool) : EntriesPhase :=
  let probe :=
    if cfg.revalidate then (none, [])
    else
      probeEntriesLoop (fun d => dataCacheRead cfg cfg.entriesCache cfg.category d)
        (resolveLookupDates dateParam allowRetry)
  let probeTrace := probe.2.map (fun d => PEv.dataGet "entries" cfg.category d)
  match probe.1 with
  | some p => { entries := some p.1, effectiveDate := p.2, fromCache := true, trace := probeTrace }
  | none =>
    let fr := fetchHatenaEntries cfg.upstream cfg.category dateParam allowRetry
    let eff := if fr.1.2 == "" then dateParam else fr.1.2
    { entries := fr.1.1, effectiveDate := eff, fromCache := false,
      trace := probeTrace ++ fr.2.map (fun d => PEv.upstreamFetch cfg.category d) }

/-- The enrichment phase (lines 327-372): articles tier, then ai-summary
tier, each read-through with revalidation bypass and forced rewrite. -/
def phaseSummary (cfg : ReqConfig) (effectiveDate displayDate : String)
    (entries : List HatenaEntry) : Option AISummaryResult × List PEv :=
  let articlesRead :=
    if cfg.revalidate then (none, ([] : List PEv))
    else
      let v := dataCacheRead cfg cfg.articlesCache cfg.category effectiveDate
      ((match v with
        | some l => if l.length > 0 then some l else none
        | none => none),
       [PEv.dataGet "articles" cfg.category effectiveDate])
  let step2 :=
    match articlesRead.1 with
    | some l => (l, true, ([] : List PEv))
    | none =>
      (fetchArticleContents entries cfg.articleOracle, false,
       [PEv.articlesFetch (min entries.length 20)])
  let articles := step2.1
  let articlesFromCache := step2.2.1
  let putArticles : List PEv :=
    if !articlesFromCache || cfg.revalidate then
      [PEv.dataPut "articles" cfg.category effectiveDate]
    else []
  let aiRead :=
    if cfg.revalidate then (none, ([] : List PEv))
    else
      match dataCacheRead cfg cfg.aiCache cfg.category effectiveDate with
      | some (.parsed v) => (some v, [PEv.dataGet "ai-summary" cfg.category effectiveDate])
      | some .corrupt =>
        (none, [PEv.dataGet "ai-summary" cfg.category effectiveDate,
                PEv.dataDel "ai-summary" cfg.category effectiveDate])
      | none => (none, [PEv.dataGet "ai-summary" cfg.category effectiveDate])
  let step5 :=
    match aiRead.1 with
    | some v => (v, true, ([] : List PEv))
    | none => (generateAISummary cfg.aiOracle articles displayDate, false, [PEv.aiGenerate])
  let aiSummary := step5.1
  let aiFromCache := step5.2.1
  let putAi : List PEv :=
    if !aiFromCache || cfg.revalidate then
      [PEv.dataPut "ai-summary" cfg.category effectiveDate]
    else []
  (some aiSummary,
   articlesRead.2 ++ step2.2.2 ++ putArticles ++ aiRead.2 ++ step5.2.2 ++ putAi)

/-- The request handler `app.get("/:category")`, as outcome plus effect
trace.  Fire-and-forget writes (`waitUntil`) are recorded at the program
point where they are scheduled. -/
def runHandler (cfg : ReqConfig) : Outcome × List PEv :=
  let dateParam := cfg.dateQ.getD cfg.yesterday
  let wantSummary := cfg.summaryParam == some "ai" || cfg.summaryParam == some "aiOnly"
  let summaryOnly := cfg.summaryParam == some "aiOnly"
  let missing := getMissingAISummaryBindings cfg.env
  if wantSummary && !missing.isEmpty then
    (.errorResp 500 "AI要約の設定が不足しています" (formatDateForDisplay dateParam)
       cfg.category
       ["不足している環境変数: " ++ String.intercalate ", " missing,
        "Cloudflare環境変数を設定するか、summary パラメータを外してアクセスしてください。"],
     [])
  else
    let allowRetry := cfg.dateQ.isNone
    let key1 := buildCacheKey cfg.baseUrl cfg.category dateParam cfg.format cfg.summaryParam
    let check1 := cfg.dateQ.isSome && cfg.cachePresent && !cfg.revalidate
    match (if check1 then cfg.fullCache key1 else none) with
    | some _ => (.cachedResp key1, [PEv.fullGet key1])
    | none =>
      let tr0 : List PEv := if check1 then [PEv.fullGet key1] else []
      let ph := phaseEntries cfg dateParam allowRetry
      match ph.entries with
      | none =>
        (.errorResp 502 "データの取得に失敗しました" (formatDateForDisplay dateParam)
           cfg.category [], tr0 ++ ph.trace)
      | some es =>
        if es.length == 0 then
          (.errorResp 404 "エントリーが見つかりませんでした" (formatDateForDisplay dateParam)
             cfg.category [], tr0 ++ ph.trace)
        else
          let eff := ph.effectiveDate
          let displayDate := formatDateForDisplay eff
          let key2 := buildCacheKey cfg.baseUrl cfg.category eff cfg.format cfg.summaryParam
          let check2 := cfg.cachePresent && !cfg.revalidate
          match (if check2 then cfg.fullCache key2 else none) with
          | some _ => (.cachedResp key2, tr0 ++ ph.trace ++ [PEv.fullGet key2])
          | none =>
            let tr2 : List PEv := if check2 then [PEv.fullGet key2] else []
            let trDel : List PEv :=
              if cfg.revalidate then
                [PEv.dataDel "entries" cfg.category eff,
                 PEv.dataDel "articles" cfg.category eff,
                 PEv.dataDel "ai-summary" cfg.category eff] ++
                (if cfg.cachePresent then [PEv.fullDel key2] else [])
              else []
            let trPutE : List PEv :=
              if !ph.fromCache || cfg.revalidate then
                [PEv.dataPut "entries" cfg.category eff]
              else []
            let sum :=
              if wantSummary then phaseSummary cfg eff displayDate es
              else (none, [])
            let trFull : List PEv := if cfg.cachePresent then [PEv.fullPut key2] else []
            (.okResp (if summaryOnly then [] else es) eff sum.1,
             tr0 ++ ph.trace ++ tr2 ++ trDel ++ trPutE ++ sum.2 ++ trFull)

/-- The emitted-entry well-formedness predicate of claim C2, as the code
enforces it: a nonempty url, and a title that is the trim of a nonempty
accumulated title text. -/
def entryOk (e : HatenaEntry) : Prop :=
  e.url ≠ "" ∧ ∃ t, t ≠ "" ∧ e.title = jsTrim t

/-! ## Concrete request configurations used in evaluations and witnesses -/

def sampleEntry : HatenaEntry :=
  { title := "T1", url := "https://example.com/a", description := "D1", users := 3,
    domain := "example.com", category := "テクノロジー", date := "2026/02/10 14:30",
    tags := ["tag"], imageUrl := none }

def sampleSummary : AISummaryResult :=
  { overview := "O", articles := [⟨"T1", "https://example.com/a", "S1"⟩] }

/-- A request for category "it" with no explicit date (yesterday resolves to
2026-02-10), no caches configured, and an upstream that answers HTTP 200 with
an empty listing for every candidate date. -/
def cfgEmptyListing : ReqConfig :=
  { category := "it", dateQ := none, format := "json", summaryParam := none,
    revalidate := false,
    env := ⟨some "k", some "a", some "t"⟩,
    yesterday := "20260210", baseUrl := "https://hinichi.example",
    cachePresent := false, kvPresent := false,
    fullCache := fun _ => none,
    entriesCache := fun _ _ => none,
    articlesCache := fun _ _ => none,
    aiCache := fun _ _ => none,
    upstream := fun _ _ => some [],
    articleOracle := fun _ => none,
    aiOracle := none }

/-- A pinned-date revalidation request with summary, edge cache configured,
and an upstream that returns one entry. -/
def cfgRevalidate : ReqConfig :=
  { category := "it", dateQ := some "20260210", format := "rss",
    summaryParam := some "ai", revalidate := true,
    env := ⟨some "k", some "a", some "t"⟩,
    yesterday := "20260209", baseUrl := "https://hinichi.example",
    cachePresent := true, kvPresent := false,
    fullCache := fun _ => none,
    entriesCache := fun _ _ => some [sampleEntry],
    articlesCache := fun _ _ => some [⟨sampleEntry, "cached body"⟩],
    aiCache := fun _ _ => some (.parsed sampleSummary),
    upstream := fun _ _ => some [sampleEntry],
    articleOracle := fun _ => some "body",
    aiOracle := some sampleSummary }

/-- A summary request with one binding whitespace-only and one absent. -/
def cfgMissingBindings : ReqConfig :=
  { category := "all", dateQ := some "20260210", format := "html",
    summaryParam := some "aiOnly", revalidate := false,
    env := ⟨some " ", none, some "t"⟩,
    yesterday := "20260209", baseUrl := "https://hinichi.example",
    cachePresent := true, kvPresent := true,
    fullCache := fun _ => some "cached-page",
    entriesCache := fun _ _ => some [sampleEntry],
    articlesCache := fun _ _ => none,
    aiCache := fun _ _ => none,
    upstream := fun _ _ => some [sampleEntry],
    articleOracle := fun _ => none,
    aiOracle := none }

end Hinichi

/-! # Theorems -/

namespace Hinichi

/-! ## Collector invariants (claims C2, C6, C7) -/

theorem cstep_entries (s : CState) (ev : CEvent) :
    (cstep s ev).entries = s.entries ∨
    (s.currentTitle ≠ "" ∧ s.currentUrl ≠ "" ∧
     (cstep s ev).entries = s.entries ++ [pushedEntry s]) := by
  cases ev <;>
    simp only [cstep, startEntry, finishEntry, setTitleUrl, startTitleText,
      appendTitleText, endTitleText, startUsersText, appendUsersText, endUsersText,
      startDomainText, appendDomainText, endDomainText, startDescriptionText,
      appendDescriptionText, endDescriptionText, startDateText, appendDateText,
      endDateText, startTagText, appendTagText, endTagText, setImageUrl, pushedEntry] <;>
    (repeat' split) <;> simp_all

theorem foldl_entries_ok (evs : List CEvent) (s : CState)
    (h : ∀ e ∈ s.entries, entryOk e) :
    ∀ e ∈ (evs.foldl cstep s).entries, entryOk e := by
  induction evs generalizing s with
  | nil => exact h
  | cons ev rest ih =>
    refine ih (cstep s ev) ?_
    rcases cstep_entries s ev with hs | ⟨ht, hu, hs⟩
    · rw [hs]; exact h
    · rw [hs]
      intro e he
      rcases List.mem_append.mp he with he | he
      · exact h e he
      · rcases List.mem_singleton.mp he with rfl
        exact ⟨hu, s.currentTitle, ht, rfl⟩

/-- C2 (amended): every entry emitted by the extractor has a non-empty url,
and its title is the whitespace-trim of a non-empty accumulated title text;
an accumulated entry whose (untrimmed) title or url is the empty string at
finalize time is discarded.  (The trimmed title itself can be empty when the
accumulated title was whitespace-only, which is the correction to the claim.) -/
theorem c2_extractor_entries (evs : List CEvent) (e : HatenaEntry)
    (he : e ∈ (runCollector evs).entries) :
    e.url ≠ "" ∧ ∃ t, t ≠ "" ∧ e.title = jsTrim t :=
  foldl_entries_ok evs initCState (by simp [initCState]) e he

/-- C2 counterexample: a whitespace-only title passes the truthiness guard of
`finishEntry`, so an entry whose trimmed title is empty is emitted, refuting
the claim that every emitted entry has a non-empty title after trimming. -/
theorem c2_counterexample :
    ((runCollector [.startEntry, .setTitleUrl "https://example.com/a", .startTitleText,
      .appendTitleText " ", .endTitleText, .finishEntry]).entries.map
        fun e => (e.title, e.url)) = [("", "https://example.com/a")] := by
  rfl

/-- C2 witness: the amended theorem applied to a concrete run. -/
theorem c2_witness :
    ({ title := "T", url := "https://example.com/x", description := "", users := 0,
       domain := "", category := "", date := "", tags := [],
       imageUrl := none } : HatenaEntry).url ≠ "" ∧
    ∃ t, t ≠ "" ∧
      ({ title := "T", url := "https://example.com/x", description := "", users := 0,
         domain := "", category := "", date := "", tags := [],
         imageUrl := none } : HatenaEntry).title = jsTrim t :=
  c2_extractor_entries
    [.startEntry, .setTitleUrl "https://example.com/x", .startTitleText,
     .appendTitleText "T", .endTitleText, .finishEntry]
    { title := "T", url := "https://example.com/x", description := "", users := 0,
      domain := "", category := "", date := "", tags := [], imageUrl := none }
    (by decide)

/-- C7: the vote count after one users-text collection cycle is the integer
value of the first digit run of the collected text, and is unchanged (stays
0 on a fresh entry) when the text has no digit run. -/
theorem c7_users_first_digit_run (s : CState) (t : String) :
    (endUsersText (appendUsersText t (startUsersText s))).currentUsers =
      match firstDigitRun t.data with
      | some run => natOfDigits run
      | none => s.currentUsers := by
  simp only [startUsersText, appendUsersText, endUsersText]
  cases h : firstDigitRun t.data <;> simp [h]

/-- C6 (amended): one date/category collection cycle trims the text and
splits it on whitespace runs; when there are at least two tokens and the
second-to-last token is non-empty and contains a dddd/dd/dd substring (the
unanchored regex test; the trailing time token is not validated), the last
two tokens joined by one space become the date and the preceding tokens the
category; otherwise the trimmed text stays as the date and the category
stays empty. -/
theorem c6_date_category_split (t : String) :
    (2 ≤ (splitTokens t).length → secondLastToken t ≠ "" →
      containsDatePat (secondLastToken t) = true →
      (collectDateCycle t).currentDate = secondLastToken t ++ " " ++ lastToken t ∧
      (collectDateCycle t).currentCategory =
        joinSpace ((splitTokens t).take ((splitTokens t).length - 2))) ∧
    (¬ (2 ≤ (splitTokens t).length ∧ secondLastToken t ≠ "" ∧
        containsDatePat (secondLastToken t) = true) →
      (collectDateCycle t).currentDate = jsTrim t ∧
      (collectDateCycle t).currentCategory = "") := by
  by_cases h : jsTrim t = ""
  · have hp : splitTokens t = [""] := by
      simp only [splitTokens, h]
      rfl
    constructor
    · intro hlen
      rw [hp] at hlen
      simp at hlen
    · intro hnot
      simp only [collectDateCycle, startDateText, appendDateText, endDateText, initCState, h]
      simp [h, splitWs, splitWsGo]
  · constructor
    · intro hlen hne hpat
      simp only [splitTokens, secondLastToken, lastToken] at hlen hne hpat ⊢
      simp only [collectDateCycle, startDateText, appendDateText, endDateText, initCState,
        if_true, ite_not, if_neg h]
      rw [if_pos hlen, if_pos ⟨hne, hpat⟩]
      exact ⟨rfl, rfl⟩
    · intro hnot
      simp only [splitTokens, secondLastToken, lastToken] at hnot
      simp only [collectDateCycle, startDateText, appendDateText, endDateText, initCState,
        if_true, ite_not, if_neg h]
      by_cases hlen : 2 ≤ (splitWs (jsTrim t)).length
      · have hinner :
            ¬ ((splitWs (jsTrim t)).getD ((splitWs (jsTrim t)).length - 2) "" ≠ "" ∧
               containsDatePat
                 ((splitWs (jsTrim t)).getD ((splitWs (jsTrim t)).length - 2) "") = true) := by
          tauto
        rw [if_pos hlen, if_neg hinner]
        exact ⟨rfl, rfl⟩
      · rw [if_neg hlen]
        exact ⟨rfl, rfl⟩

/-- C6 counterexample: the second-to-last token "x2026/02/10y" does not form
the date shape (and "zzz" is not a time token), yet the unanchored regex
test accepts it, so the code splits and the category does not stay empty. -/
theorem c6_counterexample :
    (collectDateCycle "カテゴリ x2026/02/10y zzz").currentCategory = "カテゴリ" ∧
    (collectDateCycle "カテゴリ x2026/02/10y zzz").currentDate = "x2026/02/10y zzz" := by
  constructor <;> rfl

/-- C6 witness: the amended theorem applied to the specification's example. -/
theorem c6_witness :
    (collectDateCycle "テクノロジー 2026/02/10 14:30").currentDate = "2026/02/10 14:30" ∧
    (collectDateCycle "テクノロジー 2026/02/10 14:30").currentCategory = "テクノロジー" := by
  have h := (c6_date_category_split "テクノロジー 2026/02/10 14:30").1
    (by decide) (by decide) (by decide)
  exact ⟨h.1, h.2⟩

end Hinichi

namespace Hinichi

/-! ## Calendar correctness (claims C8, C5) -/

theorem isLeap_iff (y : Nat) :
    isLeap y = true ↔ ((y % 4 = 0 ∧ y % 100 ≠ 0) ∨ y % 400 = 0) := by
  simp [isLeap]

theorem yearLen_eq (y : Nat) : yearLen y = 365 + (if isLeap y then 1 else 0) := by
  unfold yearLen
  split <;> rfl

theorem yearLen_bounds (y : Nat) : 365 ≤ yearLen y ∧ yearLen y ≤ 366 := by
  rw [yearLen_eq]
  split <;> omega

theorem dty_succ (y : Nat) : dty (y + 1) = dty y + yearLen y := by
  have h4 : (y+1+3)/4 = (y+3)/4 + (if y % 4 = 0 then 1 else 0) := by split <;> omega
  have h100 : (y+1+99)/100 = (y+99)/100 + (if y % 100 = 0 then 1 else 0) := by split <;> omega
  have h400 : (y+1+399)/400 = (y+399)/400 + (if y % 400 = 0 then 1 else 0) := by split <;> omega
  unfold dty yearLen
  cases hb : isLeap y with
  | true =>
    have h : (y % 4 = 0 ∧ y % 100 ≠ 0) ∨ y % 400 = 0 := (isLeap_iff y).mp hb
    rw [if_pos rfl, h4, h100, h400]
    by_cases c4 : y % 4 = 0 <;> by_cases c100 : y % 100 = 0 <;> by_cases c400 : y % 400 = 0 <;>
      simp_all <;> omega
  | false =>
    have h : ¬ ((y % 4 = 0 ∧ y % 100 ≠ 0) ∨ y % 400 = 0) := by
      rw [← isLeap_iff y, hb]
      exact Bool.false_ne_true
    rw [if_neg Bool.false_ne_true, h4, h100, h400]
    by_cases c4 : y % 4 = 0 <;> by_cases c100 : y % 100 = 0 <;> by_cases c400 : y % 400 = 0 <;>
      simp_all <;> omega

theorem dty_mono {a b : Nat} (h : a ≤ b) : dty a ≤ dty b := by
  induction b, h using Nat.le_induction with
  | base => exact Nat.le_refl _
  | succ n hn ih =>
    have := dty_succ n
    have := yearLen_bounds n
    omega

theorem dty_mul400 (e : Nat) : dty (400 * e) = 146097 * e := by
  unfold dty
  have h4 : (400 * e + 3) / 4 = 100 * e := by omega
  have h100 : (400 * e + 99) / 100 = 4 * e := by omega
  have h400 : (400 * e + 399) / 400 = e := by omega
  rw [h4, h100, h400]
  have : 365 * (400 * e) = 146000 * e := by ring
  omega

theorem yScanGo_spec (fuel : Nat) : ∀ y r, r < 365 * fuel →
    y ≤ (yScanGo fuel y r).1 ∧
    dty (yScanGo fuel y r).1 + (yScanGo fuel y r).2 = dty y + r ∧
    (yScanGo fuel y r).2 < yearLen (yScanGo fuel y r).1 := by
  induction fuel with
  | zero => intro y r h; omega
  | succ n ih =>
    intro y r h
    rw [yScanGo]
    split
    · rename_i hle
      have hb := yearLen_bounds y
      have ihs := ih (y + 1) (r - yearLen y) (by omega)
      have hds := dty_succ y
      refine ⟨by omega, by omega, ihs.2.2⟩
    · rename_i hgt
      refine ⟨Nat.le_refl y, rfl, ?_⟩
      show r < yearLen y
      omega

set_option maxRecDepth 40000 in
theorem mScanGo_spec_true : ∀ doy : Nat, doy < 366 →
    1 ≤ (mScanGo true 12 1 doy).1 ∧ (mScanGo true 12 1 doy).1 ≤ 12 ∧
    (mScanGo true 12 1 doy).2 < monthLen true (mScanGo true 12 1 doy).1 ∧
    monthStart true (mScanGo true 12 1 doy).1 + (mScanGo true 12 1 doy).2 = doy := by
  decide

set_option maxRecDepth 40000 in
theorem mScanGo_spec_false : ∀ doy : Nat, doy < 365 →
    1 ≤ (mScanGo false 12 1 doy).1 ∧ (mScanGo false 12 1 doy).1 ≤ 12 ∧
    (mScanGo false 12 1 doy).2 < monthLen false (mScanGo false 12 1 doy).1 ∧
    monthStart false (mScanGo false 12 1 doy).1 + (mScanGo false 12 1 doy).2 = doy := by
  decide

theorem civilFromDays_spec (z : Nat) :
    ValidCivil (civilFromDays z) ∧ toDayNumber (civilFromDays z) = z := by
  have hrem : z % 146097 < 146097 := Nat.mod_lt _ (by omega)
  have hdiv : 146097 * (z / 146097) + z % 146097 = z := by omega
  have hy := yScanGo_spec 401 (400 * (z / 146097)) (z % 146097) (by omega)
  set yr := yScanGo 401 (400 * (z / 146097)) (z % 146097) with hyr
  have hdty : dty yr.1 + yr.2 = z := by
    have := dty_mul400 (z / 146097)
    omega
  have hlen : yr.2 < yearLen yr.1 := hy.2.2
  unfold civilFromDays ValidCivil toDayNumber
  simp only [← hyr]
  cases hl : isLeap yr.1 with
  | true =>
    have hlen2 : yr.2 < 366 := by
      rw [yearLen_eq, hl] at hlen
      simp at hlen
      omega
    have hm := mScanGo_spec_true yr.2 hlen2
    refine ⟨⟨hm.1, hm.2.1, by omega, by omega⟩, ?_⟩
    have := hm.2.2.2
    omega
  | false =>
    have hlen2 : yr.2 < 365 := by
      rw [yearLen_eq, hl] at hlen
      simp at hlen
      omega
    have hm := mScanGo_spec_false yr.2 hlen2
    refine ⟨⟨hm.1, hm.2.1, by omega, by omega⟩, ?_⟩
    have := hm.2.2.2
    omega

theorem valid_off_lt_aux : ∀ (leap : Bool), ∀ m < 13, ∀ d < 32,
    1 ≤ m → 1 ≤ d → d ≤ monthLen leap m →
    monthStart leap m + (d - 1) < 365 + (if leap then 1 else 0) := by
  decide

theorem valid_off_lt (c : Civil) (h : ValidCivil c) :
    monthStart (isLeap c.y) c.m + (c.d - 1) < yearLen c.y := by
  obtain ⟨h1, h2, h3, h4⟩ := h
  have hd32 : c.d < 32 := by
    have : monthLen (isLeap c.y) c.m ≤ 31 := by
      rcases isLeap c.y <;> interval_cases m : c.m <;> simp [monthLen]
    omega
  have := valid_off_lt_aux (isLeap c.y) c.m (by omega) c.d hd32 h1 h3 h4
  rw [yearLen_eq]
  omega

theorem year_uniq {y1 y2 z : Nat}
    (h1 : dty y1 ≤ z) (h1b : z < dty y1 + yearLen y1)
    (h2 : dty y2 ≤ z) (h2b : z < dty y2 + yearLen y2) : y1 = y2 := by
  rcases Nat.lt_trichotomy y1 y2 with h | h | h
  · have : dty (y1 + 1) ≤ dty y2 := dty_mono (by omega)
    have := dty_succ y1
    omega
  · exact h
  · have : dty (y2 + 1) ≤ dty y1 := dty_mono (by omega)
    have := dty_succ y2
    omega

theorem month_lt_sum : ∀ (leap : Bool), ∀ m1 < 13, ∀ m2 < 13,
    1 ≤ m1 → m1 < m2 →
    monthStart leap m1 + monthLen leap m1 ≤ monthStart leap m2 := by
  decide

theorem month_uniq {leap : Bool} {m1 d1 m2 d2 : Nat}
    (hm1 : 1 ≤ m1) (hm1b : m1 ≤ 12) (hd1 : 1 ≤ d1) (hd1b : d1 ≤ monthLen leap m1)
    (hm2 : 1 ≤ m2) (hm2b : m2 ≤ 12) (hd2 : 1 ≤ d2) (hd2b : d2 ≤ monthLen leap m2)
    (heq : monthStart leap m1 + (d1 - 1) = monthStart leap m2 + (d2 - 1)) :
    m1 = m2 ∧ d1 = d2 := by
  rcases Nat.lt_trichotomy m1 m2 with h | h | h
  · have := month_lt_sum leap m1 (by omega) m2 (by omega) hm1 h
    omega
  · subst h
    omega
  · have := month_lt_sum leap m2 (by omega) m1 (by omega) hm2 h
    omega

theorem toDayNumber_bracket (c : Civil) (h : ValidCivil c) :
    dty c.y ≤ toDayNumber c ∧ toDayNumber c < dty c.y + yearLen c.y := by
  have := valid_off_lt c h
  unfold toDayNumber
  omega

theorem toDayNumber_left_inverse (c : Civil) (h : ValidCivil c) :
    civilFromDays (toDayNumber c) = c := by
  obtain ⟨hval, hday⟩ := civilFromDays_spec (toDayNumber c)
  set c' := civilFromDays (toDayNumber c) with hc'
  have hb := toDayNumber_bracket c h
  have hb' := toDayNumber_bracket c' hval
  rw [hday] at hb'
  have hy : c'.y = c.y := year_uniq hb'.1 hb'.2 hb.1 hb.2
  obtain ⟨h1, h2, h3, h4⟩ := h
  obtain ⟨g1, g2, g3, g4⟩ := hval
  rw [hy] at g4
  have hday2 : dty c.y + monthStart (isLeap c.y) c'.m + (c'.d - 1) =
      dty c.y + monthStart (isLeap c.y) c.m + (c.d - 1) := by
    unfold toDayNumber at hday
    rw [hy] at hday
    exact hday
  have hmu := month_uniq g1 g2 g3 g4 h1 h2 h3 h4 (by omega)
  have hee : c' = Civil.mk c'.y c'.m c'.d := rfl
  rw [hee, hy, hmu.1, hmu.2]

theorem monthStart_succ (leap : Bool) (m : Nat) (h : 1 ≤ m) :
    monthStart leap (m + 1) = monthStart leap m + monthLen leap m := by
  cases m with
  | zero => omega
  | succ k => rfl

theorem monthLen_pos : ∀ (leap : Bool), ∀ m < 13, 1 ≤ m → 1 ≤ monthLen leap m := by
  decide

theorem monthStart_12 (leap : Bool) :
    monthStart leap 12 = 334 + (if leap then 1 else 0) := by
  rcases leap <;> decide

theorem prevDay_spec (c : Civil) (h : ValidCivil c) (hpos : 1 ≤ toDayNumber c) :
    ValidCivil (prevDay c) ∧ toDayNumber (prevDay c) + 1 = toDayNumber c := by
  obtain ⟨h1, h2, h3, h4⟩ := h
  unfold prevDay
  by_cases hd : 1 < c.d
  · rw [if_pos hd]
    unfold ValidCivil toDayNumber
    simp only
    omega
  · rw [if_neg hd]
    by_cases hm : 1 < c.m
    · rw [if_pos hm]
      have hms := monthStart_succ (isLeap c.y) (c.m - 1) (by omega)
      have hmp := monthLen_pos (isLeap c.y) (c.m - 1) (by omega) (by omega)
      have hmm : c.m - 1 + 1 = c.m := by omega
      rw [hmm] at hms
      unfold ValidCivil toDayNumber
      simp only
      refine ⟨⟨by omega, by omega, by omega, by omega⟩, by omega⟩
    · rw [if_neg hm]
      have hm1 : c.m = 1 := by omega
      have hd1 : c.d = 1 := by omega
      have hy : 1 ≤ c.y := by
        by_contra hy0
        have hz : c.y = 0 := by omega
        unfold toDayNumber at hpos
        rw [hz, hm1, hd1] at hpos
        simp [dty, monthStart] at hpos
      have hds := dty_succ (c.y - 1)
      have hyy : c.y - 1 + 1 = c.y := by omega
      rw [hyy] at hds
      have hms12 := monthStart_12 (isLeap (c.y - 1))
      have hyl := yearLen_eq (c.y - 1)
      constructor
      · exact ⟨by simp, by simp, by simp, by simp [monthLen]⟩
      · unfold toDayNumber
        simp only [hm1, hd1]
        have e2 : monthStart (isLeap c.y) 1 = 0 := rfl
        rw [e2]
        rcases hb : isLeap (c.y - 1) <;> rw [hb] at hms12 hyl <;> simp at hms12 hyl <;>
          rw [hms12] <;> omega

theorem year_ge_of_day_ge {c : Civil} (hv : ValidCivil c) {y0 : Nat}
    (h : dty y0 ≤ toDayNumber c) : y0 ≤ c.y := by
  by_contra hlt
  have h1 : c.y + 1 ≤ y0 := by omega
  have h2 : dty (c.y + 1) ≤ dty y0 := dty_mono h1
  have h3 := (toDayNumber_bracket c hv).2
  have h4 := dty_succ c.y
  omega

theorem prevDays_spec (n : Nat) : ∀ c : Civil, ValidCivil c →
    dty 1000 + n ≤ toDayNumber c →
    ValidCivil (prevDays n c) ∧ toDayNumber (prevDays n c) + n = toDayNumber c ∧
    1000 ≤ (prevDays n c).y ∧ (prevDays n c).y ≤ c.y := by
  induction n with
  | zero =>
    intro c hv hn
    refine ⟨hv, by simp [prevDays], ?_, Nat.le_refl _⟩
    exact year_ge_of_day_ge hv (by omega)
  | succ k ih =>
    intro c hv hn
    have hpos : 1 ≤ toDayNumber c := by
      have : (0 : Nat) < dty 1000 := by decide
      omega
    have hp := prevDay_spec c hv hpos
    have hih := ih (prevDay c) hp.1 (by omega)
    have hyc : (prevDay c).y ≤ c.y := by
      unfold prevDay
      split
      · simp
      · split <;> simp
    have hred : prevDays (k + 1) c = prevDays k (prevDay c) := rfl
    rw [hred]
    refine ⟨hih.1, by omega, hih.2.2.1, by omega⟩

theorem digitVal_digitChar : ∀ k < 10, digitVal (digitChar k) = k := by decide

theorem parse_fmt (c : Civil) (hy : 1000 ≤ c.y) (hy2 : c.y ≤ 9999)
    (hm : c.m ≤ 99) (hd : c.d ≤ 99) : parseDate8 (fmtDate c) = c := by
  have e1 : c.y / 1000 < 10 := by omega
  have e2 : c.y / 100 % 10 < 10 := by omega
  have e3 : c.y / 10 % 10 < 10 := by omega
  have e4 : c.y % 10 < 10 := by omega
  have e5 : c.m / 10 < 10 := by omega
  have e6 : c.m % 10 < 10 := by omega
  have e7 : c.d / 10 < 10 := by omega
  have e8 : c.d % 10 < 10 := by omega
  unfold fmtDate parseDate8 digit4 digit2
  simp only [List.cons_append, List.nil_append]
  rw [digitVal_digitChar _ e1, digitVal_digitChar _ e2, digitVal_digitChar _ e3,
      digitVal_digitChar _ e4, digitVal_digitChar _ e5, digitVal_digitChar _ e6,
      digitVal_digitChar _ e7, digitVal_digitChar _ e8]
  have hee : c = Civil.mk c.y c.m c.d := rfl
  rw [hee]
  simp only [Civil.mk.injEq]
  omega

theorem monthLen_le31 : ∀ (b : Bool), ∀ m < 13, monthLen b m ≤ 31 := by decide

/-- Shared core for claims C8 and C5: on valid four-digit-year dates, and for
subtractions that stay at or after year 1000, `subtractDays` computes the
iterated calendar-correct predecessor. -/
theorem subtractDays_calendar_core (c : Civil) (n : Nat) (hv : ValidCivil c)
    (hy : 1000 ≤ c.y) (hy2 : c.y ≤ 9999)
    (hn : toDayNumber ⟨1000, 1, 1⟩ + n ≤ toDayNumber c) :
    subtractDays (fmtDate c) n = fmtDate (prevDays n c) ∧
    ValidCivil (prevDays n c) ∧ 1000 ≤ (prevDays n c).y ∧ (prevDays n c).y ≤ c.y ∧
    toDayNumber (prevDays n c) + n = toDayNumber c := by
  have hm99 : c.m ≤ 99 := by
    obtain ⟨h1, h2, h3, h4⟩ := hv
    omega
  have hd99 : c.d ≤ 99 := by
    obtain ⟨h1, h2, h3, h4⟩ := hv
    have := monthLen_le31 (isLeap c.y) c.m (by omega)
    omega
  have hparse := parse_fmt c hy hy2 hm99 hd99
  have hbase : toDayNumber ⟨1000, 1, 1⟩ = dty 1000 := rfl
  have hps := prevDays_spec n c hv (by omega)
  have hjs : jsFullYear c.y = c.y := by
    unfold jsFullYear
    rw [if_neg (by omega)]
  have hsub : subtractDays (fmtDate c) n = fmtDate (civilFromDays (toDayNumber c - n)) := by
    unfold subtractDays
    rw [hparse]
    show fmtDate (civilFromDays
        (dty (jsFullYear c.y) + monthStart (isLeap (jsFullYear c.y)) c.m + (c.d - 1) - n)) =
      fmtDate (civilFromDays (toDayNumber c - n))
    rw [hjs]
    rfl
  have hciv : civilFromDays (toDayNumber c - n) = prevDays n c := by
    have hrw : toDayNumber c - n = toDayNumber (prevDays n c) := by omega
    rw [hrw]
    exact toDayNumber_left_inverse _ hps.1
  rw [hsub, hciv]
  exact ⟨rfl, hps.1, hps.2.2.1, hps.2.2.2, hps.2.1⟩

/-- C8 (amended): for every valid YYYYMMDD date whose year field is at least
1000 and every n that keeps the result at or after year 1000, `subtractDays`
performs calendar-correct subtraction with month and year rollover: the
result is the n-fold calendar predecessor, it is a valid date, and its day
number is exactly n less.  (Year fields 99 and below are first mapped to
1900..1999 by Date.UTC's two-digit-year rule, which is the correction to the
claim; see the counterexample.) -/
theorem c8_subtractDays_correct (c : Civil) (n : Nat) (hv : ValidCivil c)
    (hy : 1000 ≤ c.y) (hy2 : c.y ≤ 9999)
    (hn : toDayNumber ⟨1000, 1, 1⟩ + n ≤ toDayNumber c) :
    subtractDays (fmtDate c) n = fmtDate (prevDays n c) ∧
    ValidCivil (prevDays n c) ∧ 1000 ≤ (prevDays n c).y ∧ (prevDays n c).y ≤ c.y ∧
    toDayNumber (prevDays n c) + n = toDayNumber c :=
  subtractDays_calendar_core c n hv hy hy2 hn

set_option maxRecDepth 40000 in
/-- C8 counterexample: "00500101" is a valid YYYYMMDD date string (year 50),
but the two-digit-year rule of `Date.UTC` maps it to 1950, so one day earlier
is reported as 1949-12-31 where calendar-correct subtraction from year 50
gives 0049-12-31. -/
theorem c8_counterexample :
    subtractDays "00500101" 1 = "19491231" ∧
    prevDay ⟨50, 1, 1⟩ = ⟨49, 12, 31⟩ ∧
    parseDate8 (subtractDays "00500101" 1) ≠ prevDay ⟨50, 1, 1⟩ := by
  refine ⟨by decide, by decide, by decide⟩

set_option maxRecDepth 40000 in
/-- C8 witness: the two examples from the specification, via the amended
theorem. -/
theorem c8_witness :
    subtractDays "20260301" 1 = "20260228" ∧ subtractDays "20240301" 1 = "20240229" := by
  have h1 := c8_subtractDays_correct ⟨2026, 3, 1⟩ 1 (by decide) (by decide) (by decide) (by decide)
  have h2 := c8_subtractDays_correct ⟨2024, 3, 1⟩ 1 (by decide) (by decide) (by decide) (by decide)
  have e1 : fmtDate (⟨2026, 3, 1⟩ : Civil) = "20260301" := by decide
  have e2 : fmtDate (⟨2024, 3, 1⟩ : Civil) = "20240301" := by decide
  have f1 : fmtDate (prevDays 1 ⟨2026, 3, 1⟩) = "20260228" := by decide
  have f2 : fmtDate (prevDays 1 ⟨2024, 3, 1⟩) = "20240229" := by decide
  rw [← e1, ← e2, h1.1, h2.1, f1, f2]
  exact ⟨rfl, rfl⟩

end Hinichi

namespace Hinichi

/-! ## Article fan-out (claim C3) -/

theorem settle_zip_map (oracle : HatenaEntry → Option String) (targets : List HatenaEntry) :
    ((targets.map (settleArticle oracle)).zip targets).map (fun p =>
        match p.1 with
        | .ok a => a
        | .error _ => ⟨p.2, p.2.description⟩) =
      targets.map (fun e =>
        { entry := e,
          bodyText :=
            match oracle e with
            | some b => if b = "" then e.description else b
            | none => e.description }) := by
  induction targets with
  | nil => rfl
  | cons e rest ih =>
    simp only [List.map_cons, List.zip_cons_cons, settleArticle]
    cases ho : oracle e with
    | none => simpa [ho] using ih
    | some b => simpa [ho] using ih

/-- C3: article-body enrichment settles one fetch per target entry (the
first 20), produces exactly one result per target in order, and a rejected
fetch or an empty fetched body degrades to the entry's description; the
batch never fails or shrinks. -/
theorem c3_article_fanout (entries : List HatenaEntry) (oracle : HatenaEntry → Option String) :
    fetchArticleContents entries oracle =
      (entries.take 20).map (fun e =>
        { entry := e,
          bodyText :=
            match oracle e with
            | some b => if b = "" then e.description else b
            | none => e.description }) ∧
    (fetchArticleContents entries oracle).length = min entries.length 20 ∧
    (fetchArticleContents entries oracle).map (fun a => a.entry) = entries.take 20 := by
  have h1 : fetchArticleContents entries oracle =
      (entries.take 20).map (fun e =>
        { entry := e,
          bodyText :=
            match oracle e with
            | some b => if b = "" then e.description else b
            | none => e.description }) := by
    unfold fetchArticleContents
    exact settle_zip_map oracle (entries.take 20)
  refine ⟨h1, ?_, ?_⟩
  · rw [h1]
    simp [List.length_take, Nat.min_comm]
  · rw [h1, List.map_map]
    have hc : ((fun a => ArticleContent.entry a) ∘ (fun e =>
        ({ entry := e,
           bodyText :=
             match oracle e with
             | some b => if b = "" then e.description else b
             | none => e.description } : ArticleContent))) = fun e => e := by
      funext e
      rfl
    rw [hc]
    simp

/-! ## Cache round trip (claim C9) -/

theorem lookup_cons_self {α : Type} (k : String) (v : α) (l : List (String × α)) :
    ((k, v) :: l).lookup k = some v := by
  simp [List.lookup]

theorem lookup_filter_ne {α : Type} (k : String) (l : List (String × α)) :
    (l.filter (fun p => !(p.1 == k))).lookup k = none := by
  induction l with
  | nil => rfl
  | cons p rest ih =>
    rcases p with ⟨k1, v⟩
    by_cases hp : k1 = k
    · have hb : ((k1, v).1 == k) = true := by simp [hp]
      simp only [List.filter, hb, Bool.not_true]
      exact ih
    · have hb : ((k1, v).1 == k) = false := by simp [hp]
      simp only [List.filter, hb, Bool.not_false]
      simp only [List.lookup]
      have hk : (k == k1) = false := by simp [Ne.symm hp]
      simp [hk, ih]

/-- C9: under either backend, a `put` followed by a `get` on the same
(kind, category, date) coordinate returns the stored payload, and a `delete`
followed by a `get` returns absent. -/
theorem c9_cache_roundtrip {α : Type} (bk : CacheBackends α)
    (baseUrl kind category date : String) (v : α)
    (h : bk.kv.isSome ∨ bk.edge.isSome) :
    (dcGet (dcPut bk baseUrl kind category date v) baseUrl kind category date).1 = some v ∧
    (dcGet (dcDelete bk baseUrl kind category date) baseUrl kind category date).1 = none := by
  rcases hkv : bk.kv with _ | st
  · rcases hedge : bk.edge with _ | se
    · rw [hkv, hedge] at h
      simp at h
    · constructor
      · simp [dcGet, dcPut, hkv, hedge, lookup_cons_self]
      · simp [dcGet, dcDelete, hkv, hedge, lookup_filter_ne]
  · constructor
    · simp [dcGet, dcPut, hkv, lookup_cons_self]
    · simp [dcGet, dcDelete, hkv, lookup_filter_ne]

/-- C9 witness: round trip on a concrete empty KV backend. -/
theorem c9_witness :
    (dcGet (dcPut (⟨some [], none⟩ : CacheBackends Nat) "https://b" "entries" "it" "20260210" 7)
      "https://b" "entries" "it" "20260210").1 = some 7 ∧
    (dcGet (dcDelete (⟨some [], none⟩ : CacheBackends Nat) "https://b" "entries" "it" "20260210")
      "https://b" "entries" "it" "20260210").1 = none :=
  c9_cache_roundtrip ⟨some [], none⟩ "https://b" "entries" "it" "20260210" 7 (Or.inl rfl)

end Hinichi

namespace Hinichi

/-! ## Candidate dates and traversal (claim C5) -/

theorem tryFetchLoop_findSome (f : String → Option (List HatenaEntry)) :
    ∀ dates : List String, (tryFetchLoop f dates).1 = dates.findSome? (listingHit f) := by
  intro dates
  induction dates with
  | nil => rfl
  | cons d rest ih =>
    rw [List.findSome?_cons]
    unfold tryFetchLoop listingHit
    cases hf : f d with
    | none => simpa using ih
    | some es =>
      by_cases hl : es.length > 0
      · simp [hl]
      · simp only [hl, if_false, gt_iff_lt, Nat.lt_irrefl]
        simpa [hl] using ih

theorem probeEntriesLoop_findSome (g : String → Option (List HatenaEntry)) :
    ∀ dates : List String, (probeEntriesLoop g dates).1 = dates.findSome? (listingHit g) := by
  intro dates
  induction dates with
  | nil => rfl
  | cons d rest ih =>
    rw [List.findSome?_cons]
    unfold probeEntriesLoop listingHit
    cases hf : g d with
    | none => simpa using ih
    | some es =>
      by_cases hl : es.length > 0
      · simp [hl]
      · simp only [hl, if_false, gt_iff_lt, Nat.lt_irrefl]
        simpa [hl] using ih

/-- C5 (amended): for valid requested dates with a four-digit year (at least
1000, staying at or after year 1000 across the lookback window),
`resolveLookupDates` returns exactly the pinned date without retry and the
three candidate dates (requested, minus one day, minus two days) with retry;
the upstream retry loop of `fetchHatenaEntries` tries exactly the same list
in the same order, and both the cache-probing loop and the retry loop stop
at the first non-empty result in that priority order.  (For year fields 99
and below, the two-digit-year rule of `Date.UTC` inside `subtractDays` makes
the probe list start at the 1900-mapped date while the fetch loop tries the
raw requested date first, so the two lists differ — the correction to the
claim; see the counterexample.) -/
theorem c5_candidate_dates (c : Civil) (hv : ValidCivil c) (hy : 1000 ≤ c.y)
    (hy2 : c.y ≤ 9999) (hn : toDayNumber ⟨1000, 1, 1⟩ + 2 ≤ toDayNumber c) :
    resolveLookupDates (fmtDate c) false = [fmtDate c] ∧
    resolveLookupDates (fmtDate c) true =
      [fmtDate c, fmtDate (prevDays 1 c), fmtDate (prevDays 2 c)] ∧
    (∀ r : Bool, fetchTryDates (fmtDate c) r = resolveLookupDates (fmtDate c) r) ∧
    (∀ (f : String → Option (List HatenaEntry)) (dates : List String),
        (tryFetchLoop f dates).1 = dates.findSome? (listingHit f)) ∧
    (∀ (g : String → Option (List HatenaEntry)) (dates : List String),
        (probeEntriesLoop g dates).1 = dates.findSome? (listingHit g)) := by
  have h0 := subtractDays_calendar_core c 0 hv hy hy2 (by omega)
  have h1 := subtractDays_calendar_core c 1 hv hy hy2 (by omega)
  have h2 := subtractDays_calendar_core c 2 hv hy hy2 (by omega)
  have hp0 : prevDays 0 c = c := rfl
  have e0 : subtractDays (fmtDate c) 0 = fmtDate c := by rw [h0.1, hp0]
  refine ⟨rfl, ?_, ?_, tryFetchLoop_findSome, probeEntriesLoop_findSome⟩
  · show ((List.range (ENTRY_LOOKBACK_DAYS + 1)).map fun i => subtractDays (fmtDate c) i) = _
    have hr : List.range (ENTRY_LOOKBACK_DAYS + 1) = [0, 1, 2] := rfl
    rw [hr]
    simp only [List.map_cons, List.map_nil]
    rw [e0, h1.1, h2.1]
  · intro r
    cases r with
    | false => rfl
    | true =>
      show ((List.range 3).map fun i => if i == 0 then fmtDate c else subtractDays (fmtDate c) i) = _
      have hr : List.range 3 = [0, 1, 2] := rfl
      rw [hr]
      show [fmtDate c, subtractDays (fmtDate c) 1, subtractDays (fmtDate c) 2] = _
      show _ = (List.range (ENTRY_LOOKBACK_DAYS + 1)).map fun i => subtractDays (fmtDate c) i
      have hr2 : List.range (ENTRY_LOOKBACK_DAYS + 1) = [0, 1, 2] := rfl
      rw [hr2]
      simp only [List.map_cons, List.map_nil]
      rw [e0]

set_option maxRecDepth 40000 in
/-- C5 witness: the theorem applied at 2026-02-10. -/
theorem c5_witness :
    resolveLookupDates "20260210" false = ["20260210"] ∧
    resolveLookupDates "20260210" true = ["20260210", "20260209", "20260208"] := by
  have h := c5_candidate_dates ⟨2026, 2, 10⟩ (by decide) (by decide) (by decide) (by decide)
  have e : fmtDate (⟨2026, 2, 10⟩ : Civil) = "20260210" := by decide
  have f1 : fmtDate (prevDays 1 ⟨2026, 2, 10⟩) = "20260209" := by decide
  have f2 : fmtDate (prevDays 2 ⟨2026, 2, 10⟩) = "20260208" := by decide
  rw [← e, ← f1, ← f2]
  exact ⟨h.1, h.2.1⟩

set_option maxRecDepth 100000 in
/-- C5 counterexample: "00500101" is a valid YYYYMMDD request date (year 50,
accepted by the route validation), but `subtractDays`'s `Date.UTC` maps year
50 to 1950, so `resolveLookupDates` probes ["19500101", "19491231",
"19491230"] — not [d, d-1 day, d-2 days] of the requested date — while the
retry loop of `fetchHatenaEntries` tries the raw "00500101" first: the cache
probe and the upstream retry do not traverse the same list. -/
theorem c5_counterexample :
    resolveLookupDates "00500101" true = ["19500101", "19491231", "19491230"] ∧
    fetchTryDates "00500101" true = ["00500101", "19491231", "19491230"] ∧
    resolveLookupDates "00500101" true ≠ fetchTryDates "00500101" true ∧
    (resolveLookupDates "00500101" true).getD 0 "" ≠ "00500101" := by
  refine ⟨by decide, by decide, by decide, by decide⟩

end Hinichi

namespace Hinichi

/-! ## Missing AI bindings guard (claim C10) -/

/-- C10: when a summary is requested and any AI binding is absent,
non-string, or whitespace-only, the handler returns the 500 error response
whose details name every missing binding, with an empty effect trace: no
cache read, no upstream fetch, no write of any kind. -/
theorem c10_missing_bindings (cfg : ReqConfig)
    (hw : cfg.summaryParam = some "ai" ∨ cfg.summaryParam = some "aiOnly")
    (hm : getMissingAISummaryBindings cfg.env ≠ []) :
    runHandler cfg =
      (.errorResp 500 "AI要約の設定が不足しています"
        (formatDateForDisplay (cfg.dateQ.getD cfg.yesterday)) cfg.category
        ["不足している環境変数: " ++
           String.intercalate ", " (getMissingAISummaryBindings cfg.env),
         "Cloudflare環境変数を設定するか、summary パラメータを外してアクセスしてください。"],
       []) := by
  unfold runHandler
  have h1 : (cfg.summaryParam == some "ai" || cfg.summaryParam == some "aiOnly") = true := by
    rcases hw with h | h <;> simp [h]
  have h2 : (getMissingAISummaryBindings cfg.env).isEmpty = false := by
    cases hgm : getMissingAISummaryBindings cfg.env with
    | nil => exact absurd hgm hm
    | cons a l => rfl
  simp only [h1, h2, Bool.not_false, Bool.and_true, if_true]

/-- C10 witness: one whitespace-only binding and one absent binding are both
reported; caches and upstream are configured with data yet remain untouched. -/
theorem c10_witness :
    runHandler cfgMissingBindings =
      (.errorResp 500 "AI要約の設定が不足しています" "2026-02-10" "all"
        ["不足している環境変数: GOOGLE_AI_API_KEY, BROWSER_RENDERING_ACCOUNT_ID",
         "Cloudflare環境変数を設定するか、summary パラメータを外してアクセスしてください。"],
       []) := by
  have h := c10_missing_bindings cfgMissingBindings (Or.inr rfl) (by decide)
  rw [h]
  rfl

end Hinichi

namespace Hinichi

/-! ## Revalidation behaviour (claim C4) -/

theorem phaseEntries_reval (cfg : ReqConfig) (hrev : cfg.revalidate = true)
    (dp : String) (ar : Bool) :
    phaseEntries cfg dp ar =
      { entries := (fetchHatenaEntries cfg.upstream cfg.category dp ar).1.1,
        effectiveDate :=
          if (fetchHatenaEntries cfg.upstream cfg.category dp ar).1.2 == "" then dp
          else (fetchHatenaEntries cfg.upstream cfg.category dp ar).1.2,
        fromCache := false,
        trace := (fetchHatenaEntries cfg.upstream cfg.category dp ar).2.map
          (fun d => PEv.upstreamFetch cfg.category d) } := by
  unfold phaseEntries
  simp only [hrev, if_true, List.map_nil, List.nil_append]

theorem phaseSummary_reval (cfg : ReqConfig) (hrev : cfg.revalidate = true)
    (eff dd : String) (es : List HatenaEntry) :
    phaseSummary cfg eff dd es =
      (some (generateAISummary cfg.aiOracle (fetchArticleContents es cfg.articleOracle) dd),
       [PEv.articlesFetch (min es.length 20),
        PEv.dataPut "articles" cfg.category eff,
        PEv.aiGenerate,
        PEv.dataPut "ai-summary" cfg.category eff]) := by
  unfold phaseSummary
  simp only [hrev, if_true, Bool.not_false, Bool.or_true, List.nil_append]
  rfl

theorem upstreamEv_map (category : String) (dates : List String) :
    ∀ e ∈ dates.map (fun d => PEv.upstreamFetch category d), isUpstreamEv e = true := by
  intro e he
  rcases List.mem_map.mp he with ⟨d, _, rfl⟩
  rfl

/-- C4: with `revalidate` set and a successfully built response, the pipeline
performs no cache read of any tier (full-response, entries, articles,
ai-summary); it deletes the three data tiers and (when the edge cache is
configured) the full-response entry for the resolved date, with all deletes
happening before every cache write and before the article/AI recomputation;
and it writes fresh payloads for every tier it computes: the entries tier
always, the articles and ai-summary tiers when a summary was requested, and
the full-response entry when the edge cache is configured. -/
theorem c4_revalidate (cfg : ReqConfig) (hrev : cfg.revalidate = true)
    (es : List HatenaEntry) (eff : String) (sm : Option AISummaryResult)
    (hout : (runHandler cfg).1 = .okResp es eff sm) :
    (∀ e ∈ (runHandler cfg).2, isReadEv e = false) ∧
    (∃ pre post,
      (runHandler cfg).2 =
        pre ++
        ([PEv.dataDel "entries" cfg.category eff,
          PEv.dataDel "articles" cfg.category eff,
          PEv.dataDel "ai-summary" cfg.category eff] ++
         (if cfg.cachePresent then
            [PEv.fullDel (buildCacheKey cfg.baseUrl cfg.category eff cfg.format cfg.summaryParam)]
          else [])) ++ post ∧
      (∀ e ∈ pre, isUpstreamEv e = true) ∧
      PEv.dataPut "entries" cfg.category eff ∈ post ∧
      ((cfg.summaryParam = some "ai" ∨ cfg.summaryParam = some "aiOnly") →
        PEv.dataPut "articles" cfg.category eff ∈ post ∧
        PEv.dataPut "ai-summary" cfg.category eff ∈ post) ∧
      (cfg.cachePresent = true →
        PEv.fullPut (buildCacheKey cfg.baseUrl cfg.category eff cfg.format cfg.summaryParam)
          ∈ post)) := by
  unfold runHandler at hout ⊢
  simp only [phaseEntries_reval cfg hrev, phaseSummary_reval cfg hrev, hrev, Bool.not_true,
    Bool.and_false, Bool.or_true, Bool.false_eq_true, if_false, eq_self_iff_true, if_true,
    List.nil_append, List.append_nil] at hout ⊢
  split at hout
  · exact absurd hout (by simp)
  · rename_i hguard
    rw [if_neg hguard]
    split at hout
    · exact absurd hout (by simp)
    · rename_i es1 hes1
      split at hout
      · exact absurd hout (by simp)
      · rename_i hlen
        rw [if_neg hlen]
        obtain ⟨hA, hB, hC⟩ := Outcome.okResp.inj hout
        subst hB
        set FR := fetchHatenaEntries cfg.upstream cfg.category (cfg.dateQ.getD cfg.yesterday)
          cfg.dateQ.isNone with hFR
        set eff2 := (if (FR.1.2 == "") = true then cfg.dateQ.getD cfg.yesterday else FR.1.2)
          with heff2
        set pre := List.map (fun d => PEv.upstreamFetch cfg.category d) FR.2 with hpre
        by_cases hcp : cfg.cachePresent = true <;>
          by_cases hws : (cfg.summaryParam == some "ai" || cfg.summaryParam == some "aiOnly") = true <;>
          simp only [hcp, hws, if_true, if_false, eq_self_iff_true, List.append_nil,
            List.nil_append] <;>
          refine ⟨fun e he => by rw [hpre] at he; cases e <;> simp_all [isReadEv], ?_⟩
        · refine ⟨pre,
            [PEv.dataPut "entries" cfg.category eff2,
             PEv.articlesFetch (min es1.length 20),
             PEv.dataPut "articles" cfg.category eff2, PEv.aiGenerate,
             PEv.dataPut "ai-summary" cfg.category eff2,
             PEv.fullPut (buildCacheKey cfg.baseUrl cfg.category eff2 cfg.format cfg.summaryParam)],
            by simp, upstreamEv_map cfg.category _, by simp, ?_, ?_⟩
          · intro hw
            constructor <;> simp
          · intro hcp2
            simp
        · refine ⟨pre,
            [PEv.dataPut "entries" cfg.category eff2,
             PEv.fullPut (buildCacheKey cfg.baseUrl cfg.category eff2 cfg.format cfg.summaryParam)],
            by simp, upstreamEv_map cfg.category _, by simp, ?_, ?_⟩
          · intro hw
            exfalso
            rcases hw with h | h <;> simp [h] at hws
          · intro hcp2
            simp
        · refine ⟨pre,
            [PEv.dataPut "entries" cfg.category eff2,
             PEv.articlesFetch (min es1.length 20),
             PEv.dataPut "articles" cfg.category eff2, PEv.aiGenerate,
             PEv.dataPut "ai-summary" cfg.category eff2],
            by simp, upstreamEv_map cfg.category _, by simp, ?_, ?_⟩
          · intro hw
            constructor <;> simp
          · exact fun h => absurd h Bool.false_ne_true
        · refine ⟨pre, [PEv.dataPut "entries" cfg.category eff2],
            by simp, upstreamEv_map cfg.category _, by simp, ?_, ?_⟩
          · intro hw
            exfalso
            rcases hw with h | h <;> simp [h] at hws
          · exact fun h => absurd h Bool.false_ne_true

end Hinichi

namespace Hinichi

set_option maxRecDepth 40000 in
/-- C4 witness: the revalidation theorem applied to a concrete pinned-date
summary request whose caches are all populated. -/
theorem c4_witness :
    (∀ e ∈ (runHandler cfgRevalidate).2, isReadEv e = false) ∧
    (∃ pre post,
      (runHandler cfgRevalidate).2 =
        pre ++
        ([PEv.dataDel "entries" cfgRevalidate.category "20260210",
          PEv.dataDel "articles" cfgRevalidate.category "20260210",
          PEv.dataDel "ai-summary" cfgRevalidate.category "20260210"] ++
         (if cfgRevalidate.cachePresent then
            [PEv.fullDel (buildCacheKey cfgRevalidate.baseUrl cfgRevalidate.category "20260210"
              cfgRevalidate.format cfgRevalidate.summaryParam)]
          else [])) ++ post ∧
      (∀ e ∈ pre, isUpstreamEv e = true) ∧
      PEv.dataPut "entries" cfgRevalidate.category "20260210" ∈ post ∧
      ((cfgRevalidate.summaryParam = some "ai" ∨ cfgRevalidate.summaryParam = some "aiOnly") →
        PEv.dataPut "articles" cfgRevalidate.category "20260210" ∈ post ∧
        PEv.dataPut "ai-summary" cfgRevalidate.category "20260210" ∈ post) ∧
      (cfgRevalidate.cachePresent = true →
        PEv.fullPut (buildCacheKey cfgRevalidate.baseUrl cfgRevalidate.category "20260210"
          cfgRevalidate.format cfgRevalidate.summaryParam) ∈ post)) :=
  c4_revalidate cfgRevalidate rfl [sampleEntry] "20260210" (some sampleSummary) (by decide)

set_option maxRecDepth 100000 in
/-- C1 evaluation (code bug): with retry allowed, the upstream answering
HTTP 200 with an empty listing for all three probed candidate dates makes
`fetchHatenaEntries` return null entries, so the handler takes the 502
upstream-failure branch (message "データの取得に失敗しました") instead of the
404 not-found branch the specification requires; the 404 branch is
unreachable because neither the cache probe nor the fetch ever produce a
non-null empty list. -/
theorem c1_empty_listing_returns_502 :
    runHandler cfgEmptyListing =
      (.errorResp 502 "データの取得に失敗しました" "2026-02-10" "it" [],
       [PEv.dataGet "entries" "it" "20260210", PEv.dataGet "entries" "it" "20260209",
        PEv.dataGet "entries" "it" "20260208",
        PEv.upstreamFetch "it" "20260210", PEv.upstreamFetch "it" "20260209",
        PEv.upstreamFetch "it" "20260208"]) := by
  decide

end Hinichi
